import Mathlib

/-!
A verification development for the `toolsearch` library (Rust): a tool-search
engine that queries multiple MCP servers, filters the returned tools with a
mode-selectable text-matching predicate, and aggregates, sorts and truncates
the results.

The definitions below are a shallow embedding of `src/lib.rs` and
`src/search.rs`.  Pure Rust functions become Lean functions; the asynchronous
fan-out over providers is represented by its settled outcome (one
`Except`-valued tool listing per provider, in dispatch order), which is the
state the aggregation loop in `search_tools_with_options` consumes after
`join_all`.  Rust `Option::unwrap` panics are modelled by `Option`-valued
results (`none` = panic).  Strings are processed on their character lists;
the Rust byte-lexicographic `String` ordering coincides with the
codepoint-lexicographic ordering used here because UTF-8 preserves codepoint
order.  Case folding (`str::to_lowercase`, `eq_ignore_ascii_case`) is modelled
with `Char.toLower`, which is the ASCII restriction of the Rust folding.

The `regex` crate is modelled by an executable engine: a syntactic parser
(`regex_new`, modelling `Regex::new` and mirroring which patterns it accepts
and rejects) and a position-aware Brzozowski-derivative search matcher
(`Regex.is_match` semantics: the pattern matches somewhere in the text, with
zero-width assertions evaluated against their position context).  The
word-boundary pattern `\b<escaped query>\b` built by `text_matches` is a
literal flanked by boundary assertions, and is modelled directly by its
search semantics (`wb_is_match`); such an escaped pattern always compiles, so
the `Err` fallback branch of the Rust code is unreachable and has no
counterpart.
-/

/-! ### String helpers (models of the Rust `str` operations used) -/

/-- Model of Rust `str::to_lowercase`, restricted to ASCII case folding. -/
def toLowerString (s : String) : String := ⟨s.data.map Char.toLower⟩

/-- Substring test on character lists: `needle` occurs contiguously in the
list.  Model of Rust `str::contains` with a string pattern. -/
def containsSub (needle : List Char) : List Char → Bool
  | [] => needle.isPrefixOf []
  | c :: t => needle.isPrefixOf (c :: t) || containsSub needle t

/-- Model of Rust `str::contains(&str)`: `needle` is a contiguous substring
of `hay`. -/
def strContains (hay needle : String) : Bool := containsSub needle.data hay.data

/-- Model of Rust `str::eq_ignore_ascii_case`. -/
def eq_ignore_ascii_case (a b : String) : Bool :=
  toLowerString a == toLowerString b

/-- Model of Rust `str::trim` (whitespace from both ends). -/
def rust_trim (s : String) : String :=
  ⟨((s.data.dropWhile Char.isWhitespace).reverse.dropWhile Char.isWhitespace).reverse⟩

/-- Model of Rust `str::split(',')`: split at every comma, keeping empty
segments (exactly `List.splitOn` on the character list). -/
def rust_split_commas (s : String) : List String :=
  (s.data.splitOn ',').map (fun cs => ⟨cs⟩)

/-! ### JSON values (model of `serde_json::Value`)

Numeric payloads are carried as `Int`; they are opaque to every operation in
this development (schema-text extraction ignores non-object, non-string
leaves), so the missing float values cannot affect any claim. -/

/-- Model of `serde_json::Value`.  Objects are ordered association lists;
the `serde_json` map iterates its entries in a deterministic order, which the
list order represents. -/
inductive Value where
  | null
  | bool (b : Bool)
  | num (n : Int)
  | str (s : String)
  | arr (items : List Value)
  | obj (entries : List (String × Value))
deriving Repr

/-- Model of `serde_json::Map::get`: the value at the first matching key. -/
def getKey (entries : List (String × Value)) (k : String) : Option Value :=
  match entries with
  | [] => none
  | (k', v) :: rest => if k' = k then some v else getKey rest k

/-- Model of `Value::is_object` from `serde_json`. -/
def Value.is_object : Value → Bool
  | .obj _ => true
  | _ => false

/-- Model of `Value::as_str` from `serde_json`. -/
def Value.as_str : Value → Option String
  | .str s => some s
  | _ => none

/-! ### Schema text extraction (`SearchCriteria::extract_schema_text`) -/

/-- The "extract property names" step of `extract_schema_text`: each key of
the object under the `"properties"` entry of the node, followed by a space. -/
def props_keys_text : List (String × Value) → String
  | [] => ""
  | (k, _) :: rest => k ++ " " ++ props_keys_text rest

/-- The step of `extract_schema_text` that looks at the `"properties"` entry
of an object node: when it exists and is itself an object, its keys are
emitted, each followed by a space. -/
def properties_text (entries : List (String × Value)) : String :=
  match getKey entries "properties" with
  | some (Value.obj props) => props_keys_text props
  | _ => ""

/-- The "extract descriptions" step of `extract_schema_text`: the
`"description"` entry of the node when it is a string, followed by a space. -/
def description_text (entries : List (String × Value)) : String :=
  match getKey entries "description" with
  | some (Value.str s) => s ++ " "
  | _ => ""

mutual

/-- Model of `SearchCriteria::extract_schema_text` (`src/lib.rs`): on an
object node, push the keys of the `"properties"` entry (when an object), then
the `"description"` string of the node, then walk the values of the node in entry order,
recursing into object values and pushing string values followed by a space.
Non-object nodes (and non-object, non-string leaf values) contribute
nothing. -/
def extract_schema_text : Value → String
  | Value.obj entries =>
      properties_text entries ++ description_text entries ++ values_text entries
  | _ => ""

/-- The final loop of `extract_schema_text` over `obj.values()`. -/
def values_text : List (String × Value) → String
  | [] => ""
  | (_, v) :: rest =>
      (if v.is_object then extract_schema_text v
       else match v.as_str with
            | some s => s ++ " "
            | none => "") ++ values_text rest

end

/-! ### A model of the `regex` crate

`regex_new` models `Regex::new`: it either rejects the pattern as invalid
(`Except.error`) or yields an AST.  `RegexAst.is_match` models
`Regex::is_match`: search semantics, i.e. the pattern matches at some
position of the text.  The parser covers the syntax of the crate: literals,
`.`, the anchors `^ $ \A \z`, the word boundaries `\b \B`, escapes (control
characters, hex `\x`/`\u`/`\U`, escaped punctuation, the perl classes
`\d \w \s` and their negations, `\p{...}` names), character classes (ranges,
literal `-` at the edges, escapes, POSIX names, nested classes and the set
operators `&& -- ~~`), groups (capturing, non-capturing `(?:`, named
`(?P<n>`/`(?<n>`, inline flag directives such as `(?i)`), alternation, and
the repetition operators `* + ?` and counted `{m} {m,} {m,n}`.  It rejects
what `Regex::new` rejects: unclosed groups and classes, dangling repetition
operators, a trailing backslash, unrecognized alphanumeric escapes,
backreferences, look-around (`(?= (?! (?<= (?<!`), unknown flag and
POSIX-class names, and inverted class and repetition ranges.  Where the
validity of a corner construct is uncertain the parser accepts it: accepting
a pattern the crate rejects only removes that pattern from the domain of the
invalid-pattern theorem, while rejecting a pattern the crate accepts would
make that theorem claim something false of the program.

The matcher is a position-aware Brzozowski-derivative engine: nullability is
parameterized by the characters adjacent to the current position, which is
what gives the zero-width assertions their meaning.  Inline flags are parsed
but not applied, and the perl/POSIX/`\p` classes use their ASCII meaning, in
line with the ASCII modelling of case folding declared above; no theorem
evaluates the matcher on a pattern where this matters (the evaluated
patterns are plain literals). -/

/-- Word character in the sense of the regex `\b` assertion and of `\w`,
ASCII subset: alphanumeric or underscore. -/
def isWordChar (c : Char) : Bool := c.isAlphanum || c = '_'

/-- Is the (optional) character a word character?  Positions outside the text
count as non-word. -/
def optIsWord : Option Char → Bool
  | some c => isWordChar c
  | none => false

/-- Character-class set expression: ranges, perl classes (`d`, `w`, `s`,
negated when `neg`), POSIX classes, `\p` names, complement, and the class
set operators of the crate. -/
inductive ClassSet where
  | ranges (rs : List (Char × Char))
  | perl (neg : Bool) (kind : Char)
  | posix (neg : Bool) (name : String)
  | uni (neg : Bool) (name : String)
  | negate (a : ClassSet)
  | union (a b : ClassSet)
  | inter (a b : ClassSet)
  | diff (a b : ClassSet)
  | sdiff (a b : ClassSet)
deriving Repr, DecidableEq

/-- Regular-expression AST. -/
inductive RegexAst where
  | fail
  | eps
  | lit (c : Char)
  | dot
  | cls (neg : Bool) (set : ClassSet)
  | wordB (neg : Bool)
  | anchorStart
  | anchorEnd
  | cat (a b : RegexAst)
  | alt (a b : RegexAst)
  | star (a : RegexAst)
deriving Repr, DecidableEq

/-- ASCII semantics of the perl classes `\d`, `\w`, `\s`. -/
def perlMatches (kind : Char) (c : Char) : Bool :=
  if kind = 'd' then c.isDigit
  else if kind = 'w' then isWordChar c
  else c.isWhitespace

/-- Ranges of the ASCII POSIX classes (the last case is `xdigit`). -/
def posixRanges (name : String) : List (Char × Char) :=
  if name = "alnum" then [('0', '9'), ('A', 'Z'), ('a', 'z')]
  else if name = "alpha" then [('A', 'Z'), ('a', 'z')]
  else if name = "ascii" then [('\x00', '\x7f')]
  else if name = "blank" then [('\t', '\t'), (' ', ' ')]
  else if name = "cntrl" then [('\x00', '\x1f'), ('\x7f', '\x7f')]
  else if name = "digit" then [('0', '9')]
  else if name = "graph" then [('!', '~')]
  else if name = "lower" then [('a', 'z')]
  else if name = "print" then [(' ', '~')]
  else if name = "punct" then [('!', '/'), (':', '@'), ('[', '\x60'), ('\x7b', '~')]
  else if name = "space" then [('\t', '\r'), (' ', ' ')]
  else if name = "upper" then [('A', 'Z')]
  else if name = "word" then [('0', '9'), ('A', 'Z'), ('_', '_'), ('a', 'z')]
  else [('0', '9'), ('A', 'F'), ('a', 'f')]

/-- Is the POSIX class name one the crate knows? -/
def posixKnown (name : String) : Bool :=
  name = "alnum" || name = "alpha" || name = "ascii" || name = "blank" ||
  name = "cntrl" || name = "digit" || name = "graph" || name = "lower" ||
  name = "print" || name = "punct" || name = "space" || name = "upper" ||
  name = "word" || name = "xdigit"

/-- ASCII approximation of the `\p{...}` classes: letters, cased letters and
digits; other property names match nothing here (no theorem evaluates
them). -/
def uniApprox (name : String) (c : Char) : Bool :=
  if name = "L" || name = "Letter" || name = "Alphabetic" then c.isAlpha
  else if name = "Lu" then c.isUpper
  else if name = "Ll" then c.isLower
  else if name = "N" || name = "Nd" then c.isDigit
  else false

/-- Does a class set match a character? -/
def clsSetMatches : ClassSet → Char → Bool
  | ClassSet.ranges rs, c => rs.any (fun p => p.1 ≤ c && c ≤ p.2)
  | ClassSet.perl neg k, c => (perlMatches k c) != neg
  | ClassSet.posix neg name, c =>
      ((posixRanges name).any (fun p => p.1 ≤ c && c ≤ p.2)) != neg
  | ClassSet.uni neg name, c => (uniApprox name c) != neg
  | ClassSet.negate a, c => !(clsSetMatches a c)
  | ClassSet.union a b, c => clsSetMatches a c || clsSetMatches b c
  | ClassSet.inter a b, c => clsSetMatches a c && clsSetMatches b c
  | ClassSet.diff a b, c => clsSetMatches a c && !(clsSetMatches b c)
  | ClassSet.sdiff a b, c => clsSetMatches a c != clsSetMatches b c

/-- Does a (possibly negated) character class match a character? -/
def clsMatches (neg : Bool) (set : ClassSet) (c : Char) : Bool :=
  if neg then !(clsSetMatches set c) else clsSetMatches set c

/-- Does the regex match the empty string at a position whose neighbouring
characters are `prev` and `next` (string edges are `none`)?  This is
nullability parameterized by position context, which is what gives the
zero-width assertions (`\b`, `\B`, `^`/`\A`, `$`/`\z`) their meaning. -/
def RegexAst.nullableAt (prev next : Option Char) : RegexAst → Bool
  | RegexAst.fail => false
  | RegexAst.eps => true
  | RegexAst.lit _ => false
  | RegexAst.dot => false
  | RegexAst.cls _ _ => false
  | RegexAst.wordB neg => (optIsWord prev != optIsWord next) != neg
  | RegexAst.anchorStart => prev.isNone
  | RegexAst.anchorEnd => next.isNone
  | RegexAst.cat a b => a.nullableAt prev next && b.nullableAt prev next
  | RegexAst.alt a b => a.nullableAt prev next || b.nullableAt prev next
  | RegexAst.star _ => true

/-- Brzozowski derivative by the character `c`, consumed at a position whose
preceding character is `prev` (assertions consume nothing, hence `fail`). -/
def RegexAst.deriv (prev : Option Char) : RegexAst → Char → RegexAst
  | RegexAst.fail, _ => RegexAst.fail
  | RegexAst.eps, _ => RegexAst.fail
  | RegexAst.lit l, c => if l = c then RegexAst.eps else RegexAst.fail
  | RegexAst.dot, c => if c = '\n' then RegexAst.fail else RegexAst.eps
  | RegexAst.cls neg set, c =>
      if clsMatches neg set c then RegexAst.eps else RegexAst.fail
  | RegexAst.wordB _, _ => RegexAst.fail
  | RegexAst.anchorStart, _ => RegexAst.fail
  | RegexAst.anchorEnd, _ => RegexAst.fail
  | RegexAst.cat a b, c =>
      if a.nullableAt prev (some c) then
        RegexAst.alt (RegexAst.cat (a.deriv prev c) b) (b.deriv prev c)
      else RegexAst.cat (a.deriv prev c) b
  | RegexAst.alt a b, c => RegexAst.alt (a.deriv prev c) (b.deriv prev c)
  | RegexAst.star a, c => RegexAst.cat (a.deriv prev c) (RegexAst.star a)

/-- Does some prefix of the list match the regex in full, starting at a
position preceded by `prev`? -/
def RegexAst.matchHere (prev : Option Char) : RegexAst → List Char → Bool
  | r, [] => r.nullableAt prev none
  | r, c :: cs =>
      r.nullableAt prev (some c) || (r.deriv prev c).matchHere (some c) cs

/-- Search from every starting position. -/
def RegexAst.searchFrom (prev : Option Char) : RegexAst → List Char → Bool
  | r, [] => r.matchHere prev []
  | r, c :: cs => r.matchHere prev (c :: cs) || r.searchFrom (some c) cs

/-- Model of `Regex::is_match`: the pattern matches at some position of the
text. -/
def RegexAst.is_match (r : RegexAst) (text : String) : Bool :=
  r.searchFrom none text.data

/-- Exactly `n` concatenated copies (for the counted repetition). -/
def repeatExact (r : RegexAst) : Nat → RegexAst
  | 0 => RegexAst.eps
  | n + 1 => RegexAst.cat r (repeatExact r n)

/-- Up to `n` optional copies (the upper part of a counted range). -/
def repeatOpt (r : RegexAst) : Nat → RegexAst
  | 0 => RegexAst.eps
  | n + 1 => RegexAst.cat (RegexAst.alt r RegexAst.eps) (repeatOpt r n)

/-- Greedily read decimal digits into an accumulator. -/
def takeDigits : List Char → Nat → Nat × List Char
  | c :: rest, acc =>
    if c.isDigit then takeDigits rest (acc * 10 + (c.toNat - 48))
    else (acc, c :: rest)
  | [], acc => (acc, [])

/-- Read a decimal number; `none` when the input does not start with a
digit. -/
def parseDecimal (input : List Char) : Option (Nat × List Char) :=
  match input with
  | c :: _ => if c.isDigit then some (takeDigits input 0) else none
  | [] => none

/-- The value of one hex digit, if it is one. -/
def hexVal (c : Char) : Option Nat :=
  if c.isDigit then some (c.toNat - 48)
  else if 'a' ≤ c && c ≤ 'f' then some (c.toNat - 87)
  else if 'A' ≤ c && c ≤ 'F' then some (c.toNat - 55)
  else none

/-- Exactly `n` hex digits. -/
def takeHex : Nat → List Char → Nat → Option (Nat × List Char)
  | 0, input, acc => some (acc, input)
  | n + 1, c :: rest, acc =>
    match hexVal c with
    | some v => takeHex n rest (acc * 16 + v)
    | none => none
  | _ + 1, [], _ => none

/-- One or more hex digits up to a closing brace (for the braced hex
escapes). -/
def takeBracedHex (fuel : Nat) (input : List Char) (acc : Nat) (seen : Bool) :
    Option (Nat × List Char) :=
  match fuel, input with
  | 0, _ => none
  | _ + 1, [] => none
  | fuel + 1, c :: rest =>
    match hexVal c with
    | some v => takeBracedHex fuel rest (acc * 16 + v) true
    | none => if c = '\x7d' && seen then some (acc, rest) else none

/-- Everything up to (and consuming) the closing delimiter. -/
def takeUntil (stop : Char) : Nat → List Char → Option (List Char × List Char)
  | 0, _ => none
  | _ + 1, [] => none
  | fuel + 1, c :: rest =>
    if c = stop then some ([], rest)
    else
      match takeUntil stop fuel rest with
      | some (name, rest') => some (c :: name, rest')
      | none => none

/-- The meaning of one escape sequence. -/
inductive EscResult where
  | ch (c : Char)
  | perlCls (neg : Bool) (kind : Char)
  | assertWb (neg : Bool)
  | anchorA
  | anchorZ
  | uniCls (neg : Bool) (name : String)
deriving Repr

/-- Parse one escape sequence (after the backslash).  `inClass` selects the
in-class meaning of `\b` (backspace) and rejects the assertions there.
Alphanumeric escapes the crate does not know, backreferences, and malformed
hex escapes are errors; every escaped non-alphanumeric character is that
literal character, exactly as in the crate. -/
def parseEscape (inClass : Bool) (input : List Char) :
    Except String (EscResult × List Char) :=
  match input with
  | [] => Except.error "trailing backslash"
  | c :: rest =>
    if c.isAlphanum then
      if c = 'd' || c = 'D' then
        Except.ok (EscResult.perlCls (c = 'D') 'd', rest)
      else if c = 'w' || c = 'W' then
        Except.ok (EscResult.perlCls (c = 'W') 'w', rest)
      else if c = 's' || c = 'S' then
        Except.ok (EscResult.perlCls (c = 'S') 's', rest)
      else if c = 'b' then
        if inClass then Except.ok (EscResult.ch '\x08', rest)
        else Except.ok (EscResult.assertWb false, rest)
      else if c = 'B' then
        if inClass then Except.error "unrecognized escape sequence"
        else Except.ok (EscResult.assertWb true, rest)
      else if c = 'A' then
        if inClass then Except.error "unrecognized escape sequence"
        else Except.ok (EscResult.anchorA, rest)
      else if c = 'z' then
        if inClass then Except.error "unrecognized escape sequence"
        else Except.ok (EscResult.anchorZ, rest)
      else if c = 'n' then Except.ok (EscResult.ch '\n', rest)
      else if c = 't' then Except.ok (EscResult.ch '\t', rest)
      else if c = 'r' then Except.ok (EscResult.ch '\r', rest)
      else if c = 'f' then Except.ok (EscResult.ch '\x0c', rest)
      else if c = 'v' then Except.ok (EscResult.ch '\x0b', rest)
      else if c = 'a' then Except.ok (EscResult.ch '\x07', rest)
      else if c = 'x' || c = 'u' || c = 'U' then
        match rest with
        | '\x7b' :: rest' =>
          match takeBracedHex (rest'.length + 1) rest' 0 false with
          | some (n, rest'') =>
            if Nat.isValidChar n then Except.ok (EscResult.ch (Char.ofNat n), rest'')
            else Except.error "invalid hex escape"
          | none => Except.error "invalid hex escape"
        | _ =>
          match takeHex (if c = 'x' then 2 else if c = 'u' then 4 else 8) rest 0 with
          | some (n, rest') =>
            if Nat.isValidChar n then Except.ok (EscResult.ch (Char.ofNat n), rest')
            else Except.error "invalid hex escape"
          | none => Except.error "invalid hex escape"
      else if c = 'p' || c = 'P' then
        match rest with
        | '\x7b' :: rest' =>
          match takeUntil '\x7d' (rest'.length + 1) rest' with
          | some (name, rest'') =>
            Except.ok (EscResult.uniCls (c = 'P') (String.mk name), rest'')
          | none => Except.error "unclosed Unicode class name"
        | d :: rest' =>
          if d.isAlpha then
            Except.ok (EscResult.uniCls (c = 'P') (String.mk [d]), rest')
          else Except.error "invalid Unicode class name"
        | [] => Except.error "invalid Unicode class name"
      else if c.isDigit then Except.error "backreferences are not supported"
      else Except.error "unrecognized escape sequence"
    else Except.ok (EscResult.ch c, rest)

/-- One parsed item with the rest of the input. -/
abbrev ParseResult := Except String (RegexAst × List Char)

mutual

/-- Parse a full alternation (`a|b|c`).  `fuel` bounds the recursion depth;
it is set from the pattern length, which every recursive descent consumes. -/
def parseAlt (fuel : Nat) (input : List Char) : ParseResult :=
  match fuel with
  | 0 => Except.error "internal: out of fuel"
  | fuel + 1 =>
    match parseSeq fuel input with
    | Except.error e => Except.error e
    | Except.ok (r, rest) =>
      match rest with
      | '|' :: rest' =>
        match parseAlt fuel rest' with
        | Except.error e => Except.error e
        | Except.ok (r', rest'') => Except.ok (RegexAst.alt r r', rest'')
      | _ => Except.ok (r, rest)

/-- Parse a concatenation of postfixed atoms, stopping at `|`, `)` or the end
of the input.  An empty concatenation yields `eps`. -/
def parseSeq (fuel : Nat) (input : List Char) : ParseResult :=
  match fuel with
  | 0 => Except.error "internal: out of fuel"
  | fuel + 1 =>
    match input with
    | [] => Except.ok (RegexAst.eps, [])
    | ')' :: _ => Except.ok (RegexAst.eps, input)
    | '|' :: _ => Except.ok (RegexAst.eps, input)
    | _ =>
      match parsePiece fuel input with
      | Except.error e => Except.error e
      | Except.ok (r, rest) =>
        match parseSeq fuel rest with
        | Except.error e => Except.error e
        | Except.ok (r', rest') => Except.ok (RegexAst.cat r r', rest')

/-- Parse one atom followed by its repetition operators. -/
def parsePiece (fuel : Nat) (input : List Char) : ParseResult :=
  match fuel with
  | 0 => Except.error "internal: out of fuel"
  | fuel + 1 =>
    match parseAtom fuel input with
    | Except.error e => Except.error e
    | Except.ok (r, rest) => parseRepeats fuel r rest

/-- Consume the `* + ?` and counted `{m} {m,} {m,n}` operators after an
atom.  A brace that does not open a well-formed counted repetition is left in
place and parsed as a literal; an inverted range is an error, as in the
crate. -/
def parseRepeats (fuel : Nat) (r : RegexAst) (input : List Char) : ParseResult :=
  match fuel with
  | 0 => Except.error "internal: out of fuel"
  | fuel + 1 =>
    match input with
    | '*' :: rest => parseRepeats fuel (RegexAst.star r) rest
    | '+' :: rest => parseRepeats fuel (RegexAst.cat r (RegexAst.star r)) rest
    | '?' :: rest => parseRepeats fuel (RegexAst.alt r RegexAst.eps) rest
    | '\x7b' :: rest =>
      match parseDecimal rest with
      | none => Except.ok (r, input)
      | some (m, rest1) =>
        match rest1 with
        | '\x7d' :: rest2 => parseRepeats fuel (repeatExact r m) rest2
        | ',' :: '\x7d' :: rest2 =>
          parseRepeats fuel (RegexAst.cat (repeatExact r m) (RegexAst.star r)) rest2
        | ',' :: rest2 =>
          match parseDecimal rest2 with
          | some (n, '\x7d' :: rest3) =>
            if m ≤ n then
              parseRepeats fuel
                (RegexAst.cat (repeatExact r m) (repeatOpt r (n - m))) rest3
            else Except.error "invalid repetition count range"
          | _ => Except.ok (r, input)
        | _ => Except.ok (r, input)
    | _ => Except.ok (r, input)

/-- Parse one atom: a group, a character class, an escape, an anchor, `.` or
a literal character.  A repetition operator with nothing to repeat, an
unclosed group, and a stray closing parenthesis are syntax errors, as in the
crate. -/
def parseAtom (fuel : Nat) (input : List Char) : ParseResult :=
  match fuel with
  | 0 => Except.error "internal: out of fuel"
  | fuel + 1 =>
    match input with
    | [] => Except.error "unexpected end of pattern"
    | '(' :: '?' :: rest => parseGroupExt fuel rest
    | '(' :: rest =>
      match parseAlt fuel rest with
      | Except.error e => Except.error e
      | Except.ok (r, rest') =>
        match rest' with
        | ')' :: rest'' => Except.ok (r, rest'')
        | _ => Except.error "unclosed group"
    | '[' :: rest => parseCls fuel rest
    | '\\' :: rest =>
      match parseEscape false rest with
      | Except.error e => Except.error e
      | Except.ok (EscResult.ch c, rest') => Except.ok (RegexAst.lit c, rest')
      | Except.ok (EscResult.perlCls neg k, rest') =>
        Except.ok (RegexAst.cls false (ClassSet.perl neg k), rest')
      | Except.ok (EscResult.assertWb neg, rest') =>
        Except.ok (RegexAst.wordB neg, rest')
      | Except.ok (EscResult.anchorA, rest') =>
        Except.ok (RegexAst.anchorStart, rest')
      | Except.ok (EscResult.anchorZ, rest') =>
        Except.ok (RegexAst.anchorEnd, rest')
      | Except.ok (EscResult.uniCls neg name, rest') =>
        Except.ok (RegexAst.cls false (ClassSet.uni neg name), rest')
    | '^' :: rest => Except.ok (RegexAst.anchorStart, rest)
    | '$' :: rest => Except.ok (RegexAst.anchorEnd, rest)
    | '.' :: rest => Except.ok (RegexAst.dot, rest)
    | '*' :: _ => Except.error "repetition operator with no expression"
    | '+' :: _ => Except.error "repetition operator with no expression"
    | '?' :: _ => Except.error "repetition operator with no expression"
    | ')' :: _ => Except.error "unopened group"
    | c :: rest => Except.ok (RegexAst.lit c, rest)

/-- The `(?` group forms: non-capturing, named, inline flags; look-around is
rejected, as in the crate. -/
def parseGroupExt (fuel : Nat) (input : List Char) : ParseResult :=
  match fuel with
  | 0 => Except.error "internal: out of fuel"
  | fuel + 1 =>
    match input with
    | ':' :: rest => parseGroupBody fuel rest
    | 'P' :: '<' :: rest => parseNamedGroup fuel rest
    | '<' :: '=' :: _ => Except.error "look-around is not supported"
    | '<' :: '!' :: _ => Except.error "look-around is not supported"
    | '<' :: rest => parseNamedGroup fuel rest
    | '=' :: _ => Except.error "look-around is not supported"
    | '!' :: _ => Except.error "look-around is not supported"
    | 'P' :: _ => Except.error "invalid group syntax"
    | _ => parseFlags fuel false input

/-- Parse a named group after the opening angle bracket. -/
def parseNamedGroup (fuel : Nat) (input : List Char) : ParseResult :=
  match fuel with
  | 0 => Except.error "internal: out of fuel"
  | fuel + 1 =>
    match takeUntil '>' (input.length + 1) input with
    | none => Except.error "unclosed group name"
    | some ([], _) => Except.error "empty group name"
    | some (_ :: _, rest) => parseGroupBody fuel rest

/-- Parse the body of a group up to its closing parenthesis. -/
def parseGroupBody (fuel : Nat) (input : List Char) : ParseResult :=
  match fuel with
  | 0 => Except.error "internal: out of fuel"
  | fuel + 1 =>
    match parseAlt fuel input with
    | Except.error e => Except.error e
    | Except.ok (r, rest) =>
      match rest with
      | ')' :: rest' => Except.ok (r, rest')
      | _ => Except.error "unclosed group"

/-- Parse an inline flag directive `(?flags)` or flag group `(?flags:...)`;
`seen` records whether a flag character has been read.  The flags themselves
are not applied by the matcher. -/
def parseFlags (fuel : Nat) (seen : Bool) (input : List Char) : ParseResult :=
  match fuel with
  | 0 => Except.error "internal: out of fuel"
  | fuel + 1 =>
    match input with
    | [] => Except.error "unclosed flag directive"
    | ')' :: rest =>
      if seen then Except.ok (RegexAst.eps, rest)
      else Except.error "empty flag directive"
    | ':' :: rest => parseGroupBody fuel rest
    | '-' :: rest =>
      match rest with
      | c :: _ =>
        if c = 'i' || c = 'm' || c = 's' || c = 'x' || c = 'u' || c = 'U' ||
            c = 'R' then
          parseFlags fuel seen rest
        else Except.error "dangling flag negation"
      | [] => Except.error "unclosed flag directive"
    | c :: rest =>
      if c = 'i' || c = 'm' || c = 's' || c = 'x' || c = 'u' || c = 'U' ||
          c = 'R' then
        parseFlags fuel true rest
      else Except.error "unrecognized flag"

/-- Parse a character class after its opening bracket, as an AST atom. -/
def parseCls (fuel : Nat) (input : List Char) : ParseResult :=
  match fuel with
  | 0 => Except.error "internal: out of fuel"
  | fuel + 1 =>
    match parseClsAfterBracket fuel input with
    | Except.error e => Except.error e
    | Except.ok ((neg, set), rest) => Except.ok (RegexAst.cls neg set, rest)

/-- Parse a (possibly nested) class after its opening bracket: optional `^`,
an optional leading literal `]`, then items and set operators up to the
closing bracket. -/
def parseClsAfterBracket (fuel : Nat) (input : List Char) :
    Except String ((Bool × ClassSet) × List Char) :=
  match fuel with
  | 0 => Except.error "internal: out of fuel"
  | fuel + 1 =>
    let (neg, rest) : Bool × List Char :=
      match input with
      | '^' :: r => (true, r)
      | _ => (false, input)
    let (seed, rest1) : Option ClassSet × List Char :=
      match rest with
      | ']' :: r => (some (ClassSet.ranges [(']', ']')]), r)
      | _ => (none, rest)
    match parseClsOps fuel seed rest1 with
    | Except.error e => Except.error e
    | Except.ok (some set, ']' :: rest2) => Except.ok ((neg, set), rest2)
    | Except.ok (none, ']' :: _) => Except.error "empty character class"
    | Except.ok (_, _) => Except.error "unclosed character class"

/-- Parse a class body at the level of the set operators. -/
def parseClsOps (fuel : Nat) (acc : Option ClassSet) (input : List Char) :
    Except String (Option ClassSet × List Char) :=
  match fuel with
  | 0 => Except.error "internal: out of fuel"
  | fuel + 1 =>
    match parseClsUnion fuel acc input with
    | Except.error e => Except.error e
    | Except.ok (lhs, rest) =>
      match rest with
      | '&' :: '&' :: rest' => parseClsOpRhs fuel lhs ClassSet.inter rest'
      | '-' :: '-' :: rest' => parseClsOpRhs fuel lhs ClassSet.diff rest'
      | '~' :: '~' :: rest' => parseClsOpRhs fuel lhs ClassSet.sdiff rest'
      | _ => Except.ok (lhs, rest)

/-- Parse the right operand of a class set operator and continue
left-associatively. -/
def parseClsOpRhs (fuel : Nat) (lhs : Option ClassSet)
    (op : ClassSet → ClassSet → ClassSet) (input : List Char) :
    Except String (Option ClassSet × List Char) :=
  match fuel with
  | 0 => Except.error "internal: out of fuel"
  | fuel + 1 =>
    match lhs with
    | none => Except.error "missing class operand"
    | some l =>
      match parseClsUnion fuel none input with
      | Except.error e => Except.error e
      | Except.ok (none, _) => Except.error "missing class operand"
      | Except.ok (some r, rest) =>
        match rest with
        | '&' :: '&' :: rest' =>
          parseClsOpRhs fuel (some (op l r)) ClassSet.inter rest'
        | '-' :: '-' :: rest' =>
          parseClsOpRhs fuel (some (op l r)) ClassSet.diff rest'
        | '~' :: '~' :: rest' =>
          parseClsOpRhs fuel (some (op l r)) ClassSet.sdiff rest'
        | _ => Except.ok (some (op l r), rest)

/-- Parse a run of class items (a union), stopping at `]`, at a set
operator, or at the end of the input. -/
def parseClsUnion (fuel : Nat) (acc : Option ClassSet) (input : List Char) :
    Except String (Option ClassSet × List Char) :=
  match fuel with
  | 0 => Except.error "internal: out of fuel"
  | fuel + 1 =>
    match input with
    | [] => Except.ok (acc, [])
    | ']' :: _ => Except.ok (acc, input)
    | '&' :: '&' :: _ => Except.ok (acc, input)
    | '-' :: '-' :: _ => Except.ok (acc, input)
    | '~' :: '~' :: _ => Except.ok (acc, input)
    | '-' :: rest =>
      parseClsUnion fuel
        (some (match acc with
          | none => ClassSet.ranges [('-', '-')]
          | some a => ClassSet.union a (ClassSet.ranges [('-', '-')]))) rest
    | _ =>
      match parseClsTerm fuel input with
      | Except.error e => Except.error e
      | Except.ok (t, rest) =>
        parseClsUnion fuel
          (some (match acc with
            | none => t
            | some a => ClassSet.union a t)) rest

/-- Parse one class item: a POSIX class, a nested class, an escape, or a
literal (possibly the start of a range). -/
def parseClsTerm (fuel : Nat) (input : List Char) :
    Except String (ClassSet × List Char) :=
  match fuel with
  | 0 => Except.error "internal: out of fuel"
  | fuel + 1 =>
    match input with
    | [] => Except.error "unclosed character class"
    | '[' :: ':' :: rest =>
      let (pneg, rest1) : Bool × List Char :=
        match rest with
        | '^' :: r => (true, r)
        | _ => (false, rest)
      match takeUntil ':' (rest1.length + 1) rest1 with
      | none => Except.error "unclosed POSIX class"
      | some (name, rest2) =>
        match rest2 with
        | ']' :: rest3 =>
          if posixKnown (String.mk name) then
            Except.ok (ClassSet.posix pneg (String.mk name), rest3)
          else Except.error "invalid POSIX class name"
        | _ => Except.error "unclosed POSIX class"
    | '[' :: rest =>
      match parseClsAfterBracket fuel rest with
      | Except.error e => Except.error e
      | Except.ok ((n, s), rest') =>
        Except.ok (if n then ClassSet.negate s else s, rest')
    | '\\' :: rest =>
      match parseEscape true rest with
      | Except.error e => Except.error e
      | Except.ok (EscResult.ch c, rest') => parseClsRange fuel c rest'
      | Except.ok (EscResult.perlCls pneg k, rest') =>
        Except.ok (ClassSet.perl pneg k, rest')
      | Except.ok (EscResult.uniCls pneg name, rest') =>
        Except.ok (ClassSet.uni pneg name, rest')
      | Except.ok (_, _) => Except.error "unrecognized escape sequence"
    | c :: rest => parseClsRange fuel c rest

/-- After one literal class character: either a range (start not above end,
as in the crate) or the single character.  A `-` before the closing bracket
or before a set operator stays literal. -/
def parseClsRange (fuel : Nat) (c : Char) (input : List Char) :
    Except String (ClassSet × List Char) :=
  match fuel with
  | 0 => Except.error "internal: out of fuel"
  | _ + 1 =>
    match input with
    | '-' :: ']' :: _ => Except.ok (ClassSet.ranges [(c, c)], input)
    | '-' :: '-' :: _ => Except.ok (ClassSet.ranges [(c, c)], input)
    | '-' :: '\\' :: rest =>
      match parseEscape true rest with
      | Except.error e => Except.error e
      | Except.ok (EscResult.ch d, rest') =>
        if c ≤ d then Except.ok (ClassSet.ranges [(c, d)], rest')
        else Except.error "invalid character class range"
      | Except.ok (_, _) => Except.error "invalid character class range"
    | '-' :: d :: rest =>
      if c ≤ d then Except.ok (ClassSet.ranges [(c, d)], rest)
      else Except.error "invalid character class range"
    | _ => Except.ok (ClassSet.ranges [(c, c)], input)

end

/-- Model of `Regex::new`: parse the whole pattern or report a syntax
error. -/
def regex_new (pattern : String) : Except String RegexAst :=
  match parseAlt (16 * pattern.data.length + 16) pattern.data with
  | Except.error e => Except.error e
  | Except.ok (r, []) => Except.ok r
  | Except.ok (_, _ :: _) => Except.error "unopened group"

/-! ### Word-boundary matching

`text_matches` in `WordBoundary` mode builds the pattern
`format!(r"\b{}\b", regex::escape(&query))` and matches it against the text.
The escaped query is a literal, so the pattern means: the query occurs at some
position with a word boundary on each side.  `wb_is_match` is that search
semantics, executable; the `Prop`-level rendering used in the statements is
`WbOccurs` below. -/

/-- The `\b` assertion holds at position `i` of `s` (positions run from `0` to
`s.length`): the characters on the two sides of the position disagree on
word-ness. -/
def boundaryAt (s : List Char) (i : Nat) : Bool :=
  optIsWord (if i = 0 then none else s.get? (i - 1)) != optIsWord (s.get? i)

/-- The literal `q` occurs in `s` at position `i`. -/
def occursAt (q s : List Char) (i : Nat) : Bool := q.isPrefixOf (s.drop i)

/-- Model of `Regex::new(format!(r"\b{}\b", regex::escape(&query)))
.is_match(text)`: the literal query occurs somewhere in the text with word
boundaries on both sides.  (The escaped pattern always compiles, so the
`Err` fallback of the Rust code is dead.) -/
def wb_is_match (query text : String) : Bool :=
  (List.range (text.data.length + 1)).any (fun i =>
    occursAt query.data text.data i &&
    boundaryAt text.data i &&
    boundaryAt text.data (i + query.data.length))

/-- Propositional reading of `wb_is_match`, used to state what "the
word-boundary-flanked pattern occurs in the text" means. -/
def WbOccurs (query text : String) : Prop :=
  ∃ i, i < text.data.length + 1 ∧
    occursAt query.data text.data i = true ∧
    boundaryAt text.data i = true ∧
    boundaryAt text.data (i + query.data.length) = true

/-! ### Data model (`src/lib.rs`) -/

/-- Model of `TransportConfig`. -/
inductive TransportConfig where
  | stdio (command : String) (args : List String) (env : List (String × String))
  | sse (url : String) (headers : List (String × String))
deriving Repr

/-- Model of `ServerConfig`. -/
structure ServerConfig where
  name : String
  transport : TransportConfig
deriving Repr

/-- Model of `str::starts_with` for a string pattern. -/
def startsWithStr (s p : String) : Bool := p.data.isPrefixOf s.data

/-- Model of `ServerConfig::validate`. -/
def ServerConfig.validate (c : ServerConfig) : Except String Unit :=
  if c.name = "" then Except.error "Server name cannot be empty"
  else
    match c.transport with
    | TransportConfig.stdio command _ _ =>
      if command = "" then
        Except.error ("Command cannot be empty for server: " ++ c.name)
      else Except.ok ()
    | TransportConfig.sse url _ =>
      if url = "" then
        Except.error ("URL cannot be empty for server: " ++ c.name)
      else if !(startsWithStr url "http://") && !(startsWithStr url "https://") then
        Except.error ("Invalid URL format for server " ++ c.name ++ ": " ++ url)
      else Except.ok ()

/-- Model of `ToolSearchError` (`src/error.rs`).  Each variant carries its
message; `io`/`serialization`/`other` carry the display of the wrapped
error. -/
inductive ToolSearchError where
  | transport (msg : String)
  | mcpProtocol (msg : String)
  | connection (msg : String)
  | unsupportedTransport (msg : String)
  | io (msg : String)
  | serialization (msg : String)
  | other (msg : String)
deriving Repr, DecidableEq

/-- The `Display` rendering of `ToolSearchError` (the `#[error(...)]`
attributes of `src/error.rs`). -/
def ToolSearchError.display : ToolSearchError → String
  | .transport m => "Transport error: " ++ m
  | .mcpProtocol m => "MCP protocol error: " ++ m
  | .connection m => "Connection error: " ++ m
  | .unsupportedTransport m => "Unsupported transport: " ++ m
  | .io m => "IO error: " ++ m
  | .serialization m => "Serialization error: " ++ m
  | .other m => "Other error: " ++ m

/-- Model of `rmcp::model::Tool`, restricted to the fields the search engine
reads: name, optional title, optional description and the input schema (a
JSON object, carried as its entry list).  `annotations`, `icons` and
`output_schema` are never read by the library and are omitted. -/
structure Tool where
  name : String
  title : Option String
  description : Option String
  input_schema : List (String × Value)
deriving Repr

/-- Model of `ToolSearchMatch`. -/
structure ToolSearchMatch where
  server_name : String
  tool : Tool
deriving Repr

/-- Model of `ToolSearchMatch::tool_name`. -/
def ToolSearchMatch.tool_name (m : ToolSearchMatch) : String := m.tool.name

/-- Model of `SortOrder`. -/
inductive SortOrder where
  | serverThenTool
  | toolThenServer
  | none
deriving Repr, DecidableEq

/-- Model of `SearchOptions`.  The timeout is carried in seconds; it only
parameterizes the provider queries, which this embedding receives already
settled. -/
structure SearchOptions where
  timeout : Option Nat
  sort_order : SortOrder
  continue_on_error : Bool
  max_results : Option Nat
deriving Repr

/-- Model of `SearchOptions::default`. -/
def SearchOptions.default : SearchOptions :=
  { timeout := some 30
    sort_order := SortOrder.serverThenTool
    continue_on_error := true
    max_results := none }

/-- Model of `SearchMode`. -/
inductive SearchMode where
  | substring
  | regex
  | keywords
  | wordBoundary
deriving Repr, DecidableEq

/-- Model of `SearchFields`. -/
structure SearchFields where
  name : Bool
  title : Bool
  description : Bool
  input_schema : Bool
deriving Repr, DecidableEq

/-- Model of `SearchFields::default`: everything but the input schema. -/
def SearchFields.default : SearchFields :=
  { name := true, title := true, description := true, input_schema := false }

/-- Model of `SearchCriteria`.  The `regex` field caches the result of
`Regex::new` exactly as the Rust struct does. -/
structure SearchCriteria where
  query : Option String
  name : Option String
  mode : SearchMode
  fields : SearchFields
  case_sensitive : Bool
  min_description_length : Option Nat
  keywords : List String
  regex : Option (Except String RegexAst)

namespace SearchCriteria

/-- Model of `SearchCriteria::with_query`. -/
def with_query (query : String) : SearchCriteria :=
  { query := some query
    name := none
    mode := SearchMode.substring
    fields := SearchFields.default
    case_sensitive := false
    min_description_length := none
    keywords := []
    regex := none }

/-- Model of `SearchCriteria::with_name`. -/
def with_name (name : String) : SearchCriteria :=
  { query := none
    name := some name
    mode := SearchMode.substring
    fields := SearchFields.default
    case_sensitive := false
    min_description_length := none
    keywords := []
    regex := none }

/-- Model of `SearchCriteria::with_regex`: the pattern is compiled eagerly and
cached. -/
def with_regex (pattern : String) : SearchCriteria :=
  { query := some pattern
    name := none
    mode := SearchMode.regex
    fields := SearchFields.default
    case_sensitive := false
    min_description_length := none
    keywords := []
    regex := some (regex_new pattern) }

/-- Model of `SearchCriteria::with_keywords`. -/
def with_keywords (keywords : List String) : SearchCriteria :=
  { query := none
    name := none
    mode := SearchMode.keywords
    fields := SearchFields.default
    case_sensitive := false
    min_description_length := none
    keywords := keywords
    regex := none }

/-- Model of `SearchCriteria::match_all`. -/
def match_all : SearchCriteria :=
  { query := none
    name := none
    mode := SearchMode.substring
    fields := SearchFields.default
    case_sensitive := false
    min_description_length := none
    keywords := []
    regex := none }

/-- Model of `SearchCriteria::with_mode`: switching to `Regex` recompiles the cached
pattern from the query, when a query is present. -/
def with_mode (c : SearchCriteria) (mode : SearchMode) : SearchCriteria :=
  let c := { c with mode := mode }
  if mode = SearchMode.regex then
    match c.query with
    | some q => { c with regex := some (regex_new q) }
    | none => c
  else c

/-- Model of `SearchCriteria::with_fields`. -/
def with_fields (c : SearchCriteria) (fields : SearchFields) : SearchCriteria :=
  { c with fields := fields }

/-- Model of `SearchCriteria::case_sensitive` (the builder setter; primed because the
field of the same name takes the plain name in Lean). -/
def case_sensitive' (c : SearchCriteria) (sensitive : Bool) : SearchCriteria :=
  { c with case_sensitive := sensitive }

/-- Model of `SearchCriteria::text_matches`.  The result is `none` when the
Rust code would panic (the `self.query.as_ref().unwrap()` calls in the
`Substring` and `WordBoundary` arms), and `some b` when it returns `b`. -/
def text_matches (c : SearchCriteria) (text : String) : Option Bool :=
  let search_text := if c.case_sensitive then text else toLowerString text
  match c.mode with
  | SearchMode.substring =>
    match c.query with
    | none => none
    | some q =>
      let query := if c.case_sensitive then q else toLowerString q
      some (strContains search_text query)
  | SearchMode.regex =>
    match c.regex with
    | some (Except.ok regex) => some (regex.is_match text)
    | some (Except.error _) => some false
    | none =>
      match c.query with
      | some query =>
        match regex_new query with
        | Except.ok regex => some (regex.is_match text)
        | Except.error _ => some false
      | none => some false
  | SearchMode.keywords =>
    let keywords := if c.case_sensitive then c.keywords
                    else c.keywords.map toLowerString
    some (keywords.all (fun keyword => strContains search_text keyword))
  | SearchMode.wordBoundary =>
    match c.query with
    | none => none
    | some q =>
      let query := if c.case_sensitive then q else toLowerString q
      some (if c.case_sensitive then wb_is_match query text
            else wb_is_match query search_text)

/-- The searchable fragments collected by `SearchCriteria::matches`, in the
order the Rust code pushes them: name, title, description, schema text (the
last only when non-empty). -/
def searchable_texts (c : SearchCriteria) (tool : Tool) : List String :=
  (if c.fields.name then [tool.name] else []) ++
  (if c.fields.title then
    match tool.title with
    | some title => [title]
    | none => []
   else []) ++
  (if c.fields.description then
    match tool.description with
    | some desc => [desc]
    | none => []
   else []) ++
  (if c.fields.input_schema then
    let schema_text := extract_schema_text (Value.obj tool.input_schema)
    if schema_text = "" then [] else [schema_text]
   else [])

/-- The final loop of `SearchCriteria::matches`: return `true` on the first
matching fragment, `false` when none matches; propagate a panic (`none`). -/
def first_fragment_match (c : SearchCriteria) : List String → Option Bool
  | [] => some false
  | t :: ts =>
    match c.text_matches t with
    | none => none
    | some true => some true
    | some false => first_fragment_match c ts

/-- Model of `SearchCriteria::matches` (primed because `matches` is a Lean
keyword); `none` models a panic inside `text_matches`. -/
def matches' (c : SearchCriteria) (tool : Tool) : Option Bool :=
  match c.name with
  | some n =>
    some (if c.case_sensitive then tool.name == n
          else eq_ignore_ascii_case tool.name n)
  | none =>
    let below_min_length : Bool :=
      match c.min_description_length with
      | some min_len =>
        (tool.description.map (fun d => decide (d.utf8ByteSize < min_len))).getD true
      | none => false
    if below_min_length then
      some false
    else if c.query.isNone && c.keywords.isEmpty then
      some true
    else
      first_fragment_match c (searchable_texts c tool)

end SearchCriteria

/-! ### Search orchestrator (`search_tools_with_options`)

The concurrent fan-out (`join_all` over one `list_tools_from_server` future
per valid provider) is I/O; its settled outcome is a list of
`(server_name, Result<Vec<Tool>, ToolSearchError>)` pairs in dispatch order,
which is precisely what the Rust aggregation loop consumes.  The model takes
that list together with the match predicate the loop applies
(`criteria.matches`, a total `Tool → Bool` whenever it does not panic) and
performs the aggregation, sorting and truncation of the source. -/

/-- The settled outcome of one provider query. -/
abbrev ProviderResult := String × Except ToolSearchError (List Tool)

/-- The error string pushed for a failed provider:
`format!("Error connecting to server {}: {}", server_name, e)`. -/
def format_error (server_name : String) (e : ToolSearchError) : String :=
  "Error connecting to server " ++ server_name ++ ": " ++ e.display

/-- The aggregation loop of `search_tools_with_options`: walk the settled
provider results in order; on success, append the matching tools as
`(server, tool)` pairs; on failure, either record the formatted error and
continue (`continue_on_error`) or abort the whole call with that error. -/
def aggregate_results (p : Tool → Bool) :
    List ProviderResult → Bool →
    Except ToolSearchError (List ToolSearchMatch × List String)
  | [], _ => Except.ok ([], [])
  | (server_name, res) :: rest, cont =>
    match res with
    | Except.ok tools =>
      match aggregate_results p rest cont with
      | Except.ok (ms, es) =>
        Except.ok ((tools.filter p).map (fun t => ⟨server_name, t⟩) ++ ms, es)
      | Except.error e => Except.error e
    | Except.error e =>
      if cont then
        match aggregate_results p rest cont with
        | Except.ok (ms, es) =>
          Except.ok (ms, format_error server_name e :: es)
        | Except.error e' => Except.error e'
      else Except.error e

/-- The `ServerThenTool` comparator of `search_tools_with_options`:
`a.server_name.cmp(&b.server_name).then_with(|| a.tool_name().cmp(b.tool_name()))`. -/
def cmp_server_then_tool (a b : ToolSearchMatch) : Ordering :=
  (compare a.server_name b.server_name).then
    (compare a.tool_name b.tool_name)

/-- The `ToolThenServer` comparator of `search_tools_with_options`. -/
def cmp_tool_then_server (a b : ToolSearchMatch) : Ordering :=
  (compare a.tool_name b.tool_name).then
    (compare a.server_name b.server_name)

/-- The sort step of `search_tools_with_options`.  `Vec::sort_by` is a stable
sort by the given comparator; `List.mergeSort` with the `isLE` view of the comparator is
the same stable sort. -/
def sort_results (ord : SortOrder) (results : List ToolSearchMatch) :
    List ToolSearchMatch :=
  match ord with
  | SortOrder.serverThenTool =>
    results.mergeSort (fun a b => (cmp_server_then_tool a b).isLE)
  | SortOrder.toolThenServer =>
    results.mergeSort (fun a b => (cmp_tool_then_server a b).isLE)
  | SortOrder.none => results

/-- The truncation step of `search_tools_with_options`
(`results.truncate(max)` when `max_results` is set). -/
def apply_limit (max_results : Option Nat) (results : List ToolSearchMatch) :
    List ToolSearchMatch :=
  match max_results with
  | some max => results.take max
  | none => results

/-- Model of `search_tools_with_options` from the settled provider results
on: aggregate (with the continue-on-error policy), then sort, then truncate.
The recoverable errors collected by the loop are printed to stderr by the
Rust code and do not reach the returned value, which the discarded second
component makes explicit. -/
def search_tools_with_options (p : Tool → Bool)
    (server_results : List ProviderResult) (options : SearchOptions) :
    Except ToolSearchError (List ToolSearchMatch) :=
  match aggregate_results p server_results options.continue_on_error with
  | Except.error e => Except.error e
  | Except.ok (results, _errors) =>
    Except.ok (apply_limit options.max_results
      (sort_results options.sort_order results))

/-- The successful provider listings, in order. -/
def provider_successes : List ProviderResult → List (String × List Tool)
  | [] => []
  | (n, Except.ok tools) :: rest => (n, tools) :: provider_successes rest
  | (_, Except.error _) :: rest => provider_successes rest

/-- The failed provider queries, in order. -/
def provider_failures : List ProviderResult → List (String × ToolSearchError)
  | [] => []
  | (_, Except.ok _) :: rest => provider_failures rest
  | (n, Except.error e) :: rest => (n, e) :: provider_failures rest

/-- The matches contributed by a list of successful provider listings. -/
def matches_of (p : Tool → Bool) : List (String × List Tool) → List ToolSearchMatch
  | [] => []
  | (n, tools) :: rest =>
    (tools.filter p).map (fun t => ⟨n, t⟩) ++ matches_of p rest

/-! ### Search builder (`src/search.rs`) -/

/-- Model of `is_likely_regex`: the query contains one of the regex
metacharacters `^ $ * + ? | [ (`. -/
def is_likely_regex (query : String) : Bool :=
  query.data.contains '^' || query.data.contains '$' ||
  query.data.contains '*' || query.data.contains '+' ||
  query.data.contains '?' || query.data.contains '|' ||
  query.data.contains '[' || query.data.contains '('

/-- Model of `SearchBuilder`. -/
structure SearchBuilder where
  servers : List ServerConfig
  query : Option String
  keywords : Option (List String)
  options : SearchOptions

namespace SearchBuilder

/-- Model of `SearchBuilder::new`. -/
def new (servers : List ServerConfig) : SearchBuilder :=
  { servers := servers
    query := none
    keywords := none
    options := SearchOptions.default }

/-- Model of `SearchBuilder::query` (primed: the field of the same name takes the
plain name in Lean). -/
def query' (b : SearchBuilder) (query : String) : SearchBuilder :=
  { b with query := some query }

/-- Model of `SearchBuilder::keywords` (primed as for the query setter): setting explicit
keywords clears any previously set query. -/
def keywords' (b : SearchBuilder) (keywords : List String) : SearchBuilder :=
  { b with keywords := some keywords, query := none }

/-- Model of `SearchBuilder::limit`. -/
def limit (b : SearchBuilder) (max : Nat) : SearchBuilder :=
  { b with options := { b.options with max_results := some max } }

/-- Model of `SearchBuilder::timeout` (in seconds). -/
def timeout (b : SearchBuilder) (seconds : Nat) : SearchBuilder :=
  { b with options := { b.options with timeout := some seconds } }

/-- Model of `SearchBuilder::sort_by_tool`. -/
def sort_by_tool (b : SearchBuilder) : SearchBuilder :=
  { b with options := { b.options with sort_order := SortOrder.toolThenServer } }

/-- Model of `SearchBuilder::sort_by_server`. -/
def sort_by_server (b : SearchBuilder) : SearchBuilder :=
  { b with options := { b.options with sort_order := SortOrder.serverThenTool } }

/-- The criteria-construction step of `SearchBuilder::search` (the rest of
that method delegates to `search_tools_with_options`): explicit keywords
force `Keywords` mode; otherwise a free-form query is auto-detected as
`Regex`, comma-separated `Keywords`, or `Substring`; no query at all means
match-all. -/
def build_criteria (b : SearchBuilder) : SearchCriteria :=
  match b.keywords with
  | some keywords => SearchCriteria.with_keywords keywords
  | none =>
    match b.query with
    | some query =>
      if is_likely_regex query then
        SearchCriteria.with_regex query
      else if query.data.contains ',' then
        SearchCriteria.with_keywords
          (((rust_split_commas query).map rust_trim).filter
            (fun s => !s.data.isEmpty))
      else
        SearchCriteria.with_query query
    | none => SearchCriteria.match_all

end SearchBuilder

/-! ### API-constructible criteria

The `SearchCriteria` values reachable through the public constructors and
builder-style setters of `src/lib.rs` (the `regex` field is private, and
`min_description_length` has no public setter used by the library). -/

/-- The criteria constructible through the public `SearchCriteria` API. -/
inductive ConstructibleCriteria : SearchCriteria → Prop where
  | with_query (q : String) : ConstructibleCriteria (SearchCriteria.with_query q)
  | with_name (n : String) : ConstructibleCriteria (SearchCriteria.with_name n)
  | with_regex (p : String) : ConstructibleCriteria (SearchCriteria.with_regex p)
  | with_keywords (ks : List String) :
      ConstructibleCriteria (SearchCriteria.with_keywords ks)
  | match_all : ConstructibleCriteria SearchCriteria.match_all
  | with_mode (c : SearchCriteria) (m : SearchMode) :
      ConstructibleCriteria c → ConstructibleCriteria (c.with_mode m)
  | with_fields (c : SearchCriteria) (f : SearchFields) :
      ConstructibleCriteria c → ConstructibleCriteria (c.with_fields f)
  | case_sensitive (c : SearchCriteria) (b : Bool) :
      ConstructibleCriteria c → ConstructibleCriteria (c.case_sensitive' b)

/-! ### Helper lemmas on substring containment -/

lemma nil_isPrefixOf (l : List Char) : List.isPrefixOf [] l = true := by
  cases l <;> rfl

lemma isPrefixOf_append_left (nd a b : List Char) (h : nd.isPrefixOf a = true) :
    nd.isPrefixOf (a ++ b) = true := by
  induction nd generalizing a with
  | nil => exact nil_isPrefixOf _
  | cons c cs ih =>
    cases a with
    | nil => simp [List.isPrefixOf] at h
    | cons d ds =>
      simp only [List.isPrefixOf, List.cons_append, Bool.and_eq_true] at h ⊢
      exact ⟨h.1, ih ds h.2⟩

lemma isPrefixOf_self_append (nd b : List Char) :
    nd.isPrefixOf (nd ++ b) = true := by
  induction nd with
  | nil => exact nil_isPrefixOf _
  | cons c cs ih => simp [List.isPrefixOf, ih]

lemma containsSub_of_isPrefixOf (nd l : List Char) (h : nd.isPrefixOf l = true) :
    containsSub nd l = true := by
  cases l with
  | nil => simpa [containsSub] using h
  | cons c t => simp [containsSub, h]

lemma containsSub_append_left (nd a b : List Char) (h : containsSub nd a = true) :
    containsSub nd (a ++ b) = true := by
  induction a with
  | nil =>
    simp only [containsSub] at h
    exact containsSub_of_isPrefixOf _ _ (isPrefixOf_append_left _ _ _ h)
  | cons c t ih =>
    simp only [containsSub, Bool.or_eq_true, List.cons_append] at h ⊢
    rcases h with h | h
    · exact Or.inl (isPrefixOf_append_left _ _ _ h)
    · exact Or.inr (ih h)

lemma containsSub_append_right (nd a b : List Char) (h : containsSub nd b = true) :
    containsSub nd (a ++ b) = true := by
  induction a with
  | nil => simpa using h
  | cons c t ih =>
    simp only [containsSub, Bool.or_eq_true, List.cons_append]
    exact Or.inr ih

lemma strContains_append_left (a b x : String) (h : strContains a x = true) :
    strContains (a ++ b) x = true := by
  simp only [strContains, String.data_append] at h ⊢
  exact containsSub_append_left _ _ _ h

lemma strContains_append_right (a b x : String) (h : strContains b x = true) :
    strContains (a ++ b) x = true := by
  simp only [strContains, String.data_append] at h ⊢
  exact containsSub_append_right _ _ _ h

lemma strContains_self_append (x b : String) : strContains (x ++ b) x = true := by
  simp only [strContains, String.data_append]
  exact containsSub_of_isPrefixOf _ _ (isPrefixOf_self_append _ _)

lemma props_keys_text_contains (props : List (String × Value)) (k : String)
    (v : Value) (h : (k, v) ∈ props) :
    strContains (props_keys_text props) k = true := by
  induction props with
  | nil => cases h
  | cons kv rest ih =>
    rcases kv with ⟨k', v'⟩
    rcases List.mem_cons.mp h with h | h
    · cases h
      show strContains (k ++ " " ++ props_keys_text rest) k = true
      rw [String.append_assoc]
      exact strContains_self_append _ _
    · show strContains (k' ++ " " ++ props_keys_text rest) k = true
      rw [String.append_assoc]
      exact strContains_append_right _ _ _ (strContains_append_right _ _ _ (ih h))

lemma values_text_contains_str (entries : List (String × Value)) (k s : String)
    (h : (k, Value.str s) ∈ entries) :
    strContains (values_text entries) s = true := by
  induction entries with
  | nil => cases h
  | cons kv rest ih =>
    rcases kv with ⟨k', v'⟩
    rcases List.mem_cons.mp h with h | h
    · cases h
      show strContains ((s ++ " ") ++ values_text rest) s = true
      exact strContains_append_left _ _ _ (strContains_self_append _ _)
    · exact strContains_append_right _ _ _ (ih h)

/-! ### C3: schema text extraction -/

/-- C3 counterexample.  The claim says extraction on an object node
concatenates **all key names of that node**, and emits all nested-object
text before all string-leaf text.  The code instead emits only the keys of
the `"properties"` member of the node, and walks the values in entry order.  On
`{"foo": true}` the extraction is empty, so the key `"foo"` does not occur in
it; on `{"a": "s", "b": {"description": "d"}}` the extraction is `"s d d "`
(string leaf first, in entry order; the nested description is emitted twice,
as description and as string leaf), not the `"d d s "` the claimed
nested-objects-before-string-leaves ordering would give. -/
theorem extract_schema_text_c3_counterexample :
    strContains (extract_schema_text (Value.obj [("foo", Value.bool true)])) "foo"
      = false ∧
    extract_schema_text
      (Value.obj [("a", Value.str "s"),
                  ("b", Value.obj [("description", Value.str "d")])]) = "s d d " ∧
    ("s d d " : String) ≠ "d d s " := by
  refine ⟨by decide, by decide, by decide⟩

/-- C3 (corrected): for an object root, `extract_schema_text` emits (1) the
key names of the `"properties"` member of the node when that member is an object,
each followed by a space, then (2) the `"description"` string member of the node
if present, then (3) walks the members of the node in entry order, appending the
recursive extraction of each object-typed value and the literal text (plus
space) of each string-typed value; non-object, non-string leaves contribute
nothing.  Every `properties` key, the description and every string-leaf text
occur in the result; extraction on
`{"properties":{"path":{}},"description":"x"}` yields text containing both
`"path"` and `"x"`. -/
theorem extract_schema_text_c3 (entries : List (String × Value)) :
    (extract_schema_text (Value.obj entries) =
      properties_text entries ++ description_text entries ++ values_text entries) ∧
    (∀ props k v, getKey entries "properties" = some (Value.obj props) →
      (k, v) ∈ props →
      strContains (extract_schema_text (Value.obj entries)) k = true) ∧
    (∀ s, getKey entries "description" = some (Value.str s) →
      strContains (extract_schema_text (Value.obj entries)) s = true) ∧
    (∀ k s, (k, Value.str s) ∈ entries →
      strContains (extract_schema_text (Value.obj entries)) s = true) ∧
    (∀ k v rest, v.is_object = false → v.as_str = none →
      values_text ((k, v) :: rest) = values_text rest) ∧
    strContains (extract_schema_text (Value.obj
      [("properties", Value.obj [("path", Value.obj [])]),
       ("description", Value.str "x")])) "path" = true ∧
    strContains (extract_schema_text (Value.obj
      [("properties", Value.obj [("path", Value.obj [])]),
       ("description", Value.str "x")])) "x" = true := by
  refine ⟨rfl, ?_, ?_, ?_, ?_, by decide, by decide⟩
  · intro props k v hget hmem
    show strContains (properties_text entries ++ description_text entries ++
      values_text entries) k = true
    rw [String.append_assoc]
    apply strContains_append_left
    unfold properties_text
    rw [hget]
    exact props_keys_text_contains _ _ _ hmem
  · intro s hget
    show strContains (properties_text entries ++ description_text entries ++
      values_text entries) s = true
    apply strContains_append_left
    apply strContains_append_right
    unfold description_text
    rw [hget]
    exact strContains_self_append _ _
  · intro k s hmem
    show strContains (properties_text entries ++ description_text entries ++
      values_text entries) s = true
    rw [String.append_assoc]
    apply strContains_append_right
    apply strContains_append_right
    exact values_text_contains_str _ _ _ hmem
  · intro k v rest hobj hstr
    show (if v.is_object then _ else _) ++ values_text rest = values_text rest
    rw [hobj]
    simp only [Bool.false_eq_true, if_false, hstr]
    rfl

/-- C3 witness: the corrected statement applied to the concrete schema
`{"properties":{"path":{}},"description":"x"}`, discharging its membership
hypotheses there. -/
theorem extract_schema_text_c3_witness :
    strContains (extract_schema_text (Value.obj
      [("properties", Value.obj [("path", Value.obj [])]),
       ("description", Value.str "x")])) "path" = true ∧
    strContains (extract_schema_text (Value.obj
      [("properties", Value.obj [("path", Value.obj [])]),
       ("description", Value.str "x")])) "x" = true :=
  ⟨(extract_schema_text_c3
      [("properties", Value.obj [("path", Value.obj [])]),
       ("description", Value.str "x")]).2.1
      [("path", Value.obj [])] "path" (Value.obj []) rfl (List.Mem.head _),
   (extract_schema_text_c3
      [("properties", Value.obj [("path", Value.obj [])]),
       ("description", Value.str "x")]).2.2.1 "x" rfl⟩

/-! ### C7: keywords mode -/

lemma perm_all_eq {α : Type} {l1 l2 : List α} (h : l1.Perm l2) (f : α → Bool) :
    l1.all f = l2.all f := by
  induction h with
  | nil => rfl
  | cons x _ ih => simp [List.all_cons, ih]
  | swap x y l => simp [List.all_cons, Bool.and_left_comm]
  | trans _ _ ih1 ih2 => exact ih1.trans ih2

lemma keywords_all_eq (c : SearchCriteria) (text : String)
    (hm : c.mode = SearchMode.keywords) :
    c.text_matches text = some (c.keywords.all (fun k =>
      strContains (if c.case_sensitive then text else toLowerString text)
        (if c.case_sensitive then k else toLowerString k))) := by
  simp only [SearchCriteria.text_matches, hm]
  cases hcs : c.case_sensitive
  · simp only [hcs, Bool.false_eq_true, if_false, List.all_map]
    rfl
  · simp [hcs]

/-- C7 (confirmed): in `Keywords` mode, `text_matches` is the logical AND
over the keywords of substring containment, with both the keyword and the
text case-folded unless `case_sensitive`; it is therefore invariant under any
permutation of the keyword list, and an empty keyword list matches every
text. -/
theorem keywords_mode_c7 (c : SearchCriteria) (text : String)
    (hm : c.mode = SearchMode.keywords) :
    (c.text_matches text = some (c.keywords.all (fun k =>
      strContains (if c.case_sensitive then text else toLowerString text)
        (if c.case_sensitive then k else toLowerString k)))) ∧
    (∀ c' : SearchCriteria, c'.mode = SearchMode.keywords →
      c'.case_sensitive = c.case_sensitive → c.keywords.Perm c'.keywords →
      c.text_matches text = c'.text_matches text) ∧
    (c.keywords = [] → c.text_matches text = some true) := by
  refine ⟨keywords_all_eq c text hm, ?_, ?_⟩
  · intro c' hm' hcs hperm
    rw [keywords_all_eq c text hm, keywords_all_eq c' text hm', hcs]
    exact congrArg some (perm_all_eq hperm _)
  · intro hk
    rw [keywords_all_eq c text hm, hk]
    rfl

/-- C7 witness: two keyword criteria that are permutations of one another
(`["file", "read"]` and `["read", "file"]`) agree on the text
`"read_file"`, and the empty keyword list matches it. -/
theorem keywords_mode_c7_witness :
    (SearchCriteria.with_keywords ["file", "read"]).text_matches "read_file"
      = (SearchCriteria.with_keywords ["read", "file"]).text_matches "read_file" ∧
    (SearchCriteria.with_keywords []).text_matches "read_file" = some true :=
  ⟨(keywords_mode_c7 (SearchCriteria.with_keywords ["file", "read"]) "read_file"
      rfl).2.1 (SearchCriteria.with_keywords ["read", "file"]) rfl rfl
      (List.Perm.swap _ _ _),
   (keywords_mode_c7 (SearchCriteria.with_keywords []) "read_file" rfl).2.2 rfl⟩

/-! ### C10: regex mode ignores the case-sensitivity flag -/

/-- C10 (confirmed): in `Regex` mode the compiled pattern is applied to the
original, non-case-folded text, so the result of `text_matches` does not
depend on the `case_sensitive` flag at all; `with_regex` constructs its
criteria with `case_sensitive = false`, and a pattern without inline case
flags matches case-sensitively (`"READ"` does not match `"read"`, while
`"read"` does). -/
theorem regex_ignores_case_flag_c10 (c : SearchCriteria) (text : String)
    (b1 b2 : Bool) (h : c.mode = SearchMode.regex) :
    ((c.case_sensitive' b1).text_matches text
      = (c.case_sensitive' b2).text_matches text) ∧
    (∀ p, (SearchCriteria.with_regex p).case_sensitive = false) ∧
    ((SearchCriteria.with_regex "READ").text_matches "read" = some false) ∧
    ((SearchCriteria.with_regex "read").text_matches "read" = some true) := by
  refine ⟨?_, fun _ => rfl, by decide, by decide⟩
  simp only [SearchCriteria.case_sensitive', SearchCriteria.text_matches, h]

/-- C10 witness: the flag-invariance applied to the concrete criteria
`with_regex "READ"` on text `"read"`, flipping the flag both ways. -/
theorem regex_ignores_case_flag_c10_witness :
    ((SearchCriteria.with_regex "READ").case_sensitive' true).text_matches "read"
      = ((SearchCriteria.with_regex "READ").case_sensitive' false).text_matches "read" :=
  (regex_ignores_case_flag_c10 (SearchCriteria.with_regex "READ") "read"
    true false rfl).1

/-! ### C6: invalid regex patterns never match and never raise -/

lemma first_fragment_const_false (c : SearchCriteria)
    (h : ∀ t, c.text_matches t = some false) :
    ∀ l, c.first_fragment_match l = some false := by
  intro l
  induction l with
  | nil => rfl
  | cons t ts ih => simp [SearchCriteria.first_fragment_match, h, ih]

/-- C6 (confirmed): a criteria in `Regex` mode whose query fails to compile
— whether built by `with_regex` (which caches the compilation error) or by
`with_query` followed by `with_mode Regex` (which recompiles) — evaluates to
`false` on every fragment and on every tool, and never panics or surfaces an
error during match evaluation (`matches` is `some false`, never `none`). -/
theorem invalid_regex_c6 (pat e : String)
    (h : regex_new pat = Except.error e) :
    (∀ text, (SearchCriteria.with_regex pat).text_matches text = some false) ∧
    (∀ t, (SearchCriteria.with_regex pat).matches' t = some false) ∧
    (∀ text, ((SearchCriteria.with_query pat).with_mode SearchMode.regex).text_matches text
      = some false) ∧
    (∀ t, ((SearchCriteria.with_query pat).with_mode SearchMode.regex).matches' t
      = some false) := by
  have heq : (SearchCriteria.with_query pat).with_mode SearchMode.regex
      = SearchCriteria.with_regex pat := rfl
  have htm : ∀ text, (SearchCriteria.with_regex pat).text_matches text = some false := by
    intro text
    simp [SearchCriteria.text_matches, SearchCriteria.with_regex, h]
  have hmt : ∀ t, (SearchCriteria.with_regex pat).matches' t = some false := by
    intro t
    simp only [SearchCriteria.matches', SearchCriteria.with_regex]
    exact first_fragment_const_false _ htm _
  exact ⟨htm, hmt, fun text => heq ▸ htm text, fun t => heq ▸ hmt t⟩

/-- C6 witness: the unclosed group `"("` and the look-around `"(?=a)"` are
rejected by `Regex::new`, and the resulting criteria match nothing — here
evaluated on the text `"(x)"` and on tools whose names the patterns would
otherwise inspect. -/
theorem invalid_regex_c6_witness :
    (SearchCriteria.with_regex "(").text_matches "(x)" = some false ∧
    (SearchCriteria.with_regex "(").matches'
      { name := "(", title := none, description := none, input_schema := [] }
      = some false ∧
    (SearchCriteria.with_regex "(?=a)").matches'
      { name := "a", title := none, description := none, input_schema := [] }
      = some false :=
  ⟨(invalid_regex_c6 "(" "unclosed group" rfl).1 "(x)",
   (invalid_regex_c6 "(" "unclosed group" rfl).2.1
     { name := "(", title := none, description := none, input_schema := [] },
   (invalid_regex_c6 "(?=a)" "look-around is not supported" rfl).2.1
     { name := "a", title := none, description := none, input_schema := [] }⟩

/-! ### C4: word-boundary mode -/

lemma wb_is_match_iff (q s : String) :
    wb_is_match q s = true ↔ WbOccurs q s := by
  simp [wb_is_match, WbOccurs, List.any_eq_true, List.mem_range,
    Bool.and_eq_true, and_assoc]

/-- C4 counterexample.  The claim says `WordBoundary` matching with query
`"read"` matches the fragment `"read_file"`.  It does not: the pattern is
`\bread\b`, the underscore is a word character (`\w` is `[0-9A-Za-z_]`), so
there is no word boundary between `d` and `_` and the pattern finds no
occurrence in `"read_file"`. -/
theorem word_boundary_c4_counterexample :
    ((SearchCriteria.with_query "read").with_mode
      SearchMode.wordBoundary).text_matches "read_file" = some false := by
  decide

/-- C4 (corrected): `WordBoundary` matching with query `"read"` (default
case-insensitive) matches the fragment `"read"` but not `"read_file"` (the
underscore is a word character, so no boundary follows `read` there), nor
`"bread"` or `"reader"`; and in general a `WordBoundary` criteria with query
`q` matches a fragment iff the literal (regex-escaped) query flanked by
zero-width word-boundary assertions occurs in the fragment, both case-folded
unless `case_sensitive`.  (The pattern `\b<escaped query>\b` always
compiles, so the substring fallback for a failed compilation is dead
code.) -/
theorem word_boundary_c4 (c : SearchCriteria) (q text : String)
    (hm : c.mode = SearchMode.wordBoundary) (hq : c.query = some q) :
    (((SearchCriteria.with_query "read").with_mode
        SearchMode.wordBoundary).text_matches "read" = some true) ∧
    (((SearchCriteria.with_query "read").with_mode
        SearchMode.wordBoundary).text_matches "read_file" = some false) ∧
    (((SearchCriteria.with_query "read").with_mode
        SearchMode.wordBoundary).text_matches "bread" = some false) ∧
    (((SearchCriteria.with_query "read").with_mode
        SearchMode.wordBoundary).text_matches "reader" = some false) ∧
    (c.text_matches text = some true ↔
      WbOccurs (if c.case_sensitive then q else toLowerString q)
        (if c.case_sensitive then text else toLowerString text)) := by
  refine ⟨by decide, by decide, by decide, by decide, ?_⟩
  simp only [SearchCriteria.text_matches, hm, hq]
  cases hcs : c.case_sensitive <;> simp [hcs, wb_is_match_iff]

/-- C4 witness: the general boundary characterization applied to the
concrete criteria `with_query "read"` in `WordBoundary` mode on the fragment
`"read"`, exhibiting the occurrence at position `0` (string edges are
boundaries). -/
theorem word_boundary_c4_witness :
    ((SearchCriteria.with_query "read").with_mode
      SearchMode.wordBoundary).text_matches "read" = some true :=
  (word_boundary_c4 ((SearchCriteria.with_query "read").with_mode
      SearchMode.wordBoundary) "read" "read" rfl rfl).2.2.2.2.mpr
    ⟨0, by decide, by decide, by decide, by decide⟩

/-! ### C8: search-builder mode auto-detection -/

/-- C8 (confirmed): with no explicit keywords, a free-form query is turned
into criteria by this precedence — `Regex` when it contains one of
`^ $ * + ? | [ (`; else `Keywords` when it contains a comma, the keyword list
being the comma-split segments, trimmed, with empty segments dropped; else
`Substring`.  Supplying explicit keywords bypasses the heuristic, forces
`Keywords` mode and clears any previously set query. -/
theorem builder_auto_detection_c8 (b : SearchBuilder) (q : String)
    (hk : b.keywords = none) (hq : b.query = some q) :
    (is_likely_regex q = true →
      b.build_criteria = SearchCriteria.with_regex q ∧
      b.build_criteria.mode = SearchMode.regex) ∧
    (is_likely_regex q = false → q.data.contains ',' = true →
      b.build_criteria = SearchCriteria.with_keywords
        (((rust_split_commas q).map rust_trim).filter (fun s => !s.data.isEmpty)) ∧
      b.build_criteria.mode = SearchMode.keywords) ∧
    (is_likely_regex q = false → q.data.contains ',' = false →
      b.build_criteria = SearchCriteria.with_query q ∧
      b.build_criteria.mode = SearchMode.substring) ∧
    (∀ b' : SearchBuilder, ∀ ks : List String,
      (b'.keywords' ks).build_criteria = SearchCriteria.with_keywords ks ∧
      (b'.keywords' ks).build_criteria.mode = SearchMode.keywords ∧
      (b'.keywords' ks).query = none) := by
  refine ⟨?_, ?_, ?_, ?_⟩
  · intro hre
    simp [SearchBuilder.build_criteria, hk, hq, hre, SearchCriteria.with_regex]
  · intro hre hc
    have hc' : ',' ∈ q.data := by simpa using hc
    simp [SearchBuilder.build_criteria, hk, hq, hre, hc', SearchCriteria.with_keywords]
  · intro hre hc
    have hc' : ',' ∉ q.data := by simpa using hc
    simp [SearchBuilder.build_criteria, hk, hq, hre, hc', SearchCriteria.with_query]
  · intro b' ks
    exact ⟨rfl, rfl, rfl⟩

/-- C8 witness: the heuristic applied to the concrete queries `"^get"`
(regex metacharacter), `" read , file ,"` (commas: split, trimmed, empties
dropped), and `"read"` (plain substring), on a fresh builder; plus the
keyword bypass on a builder whose query was previously set. -/
theorem builder_auto_detection_c8_witness :
    (SearchBuilder.query' (SearchBuilder.new []) "^get").build_criteria
      = SearchCriteria.with_regex "^get" ∧
    (SearchBuilder.query' (SearchBuilder.new []) " read , file ,").build_criteria
      = SearchCriteria.with_keywords ["read", "file"] ∧
    (SearchBuilder.query' (SearchBuilder.new []) "read").build_criteria
      = SearchCriteria.with_query "read" ∧
    ((SearchBuilder.query' (SearchBuilder.new []) "read").keywords' ["a"]).build_criteria
      = SearchCriteria.with_keywords ["a"] ∧
    ((SearchBuilder.query' (SearchBuilder.new []) "read").keywords' ["a"]).query = none := by
  have h1 := (builder_auto_detection_c8 (SearchBuilder.query' (SearchBuilder.new []) "^get")
    "^get" rfl rfl).1 (by decide)
  have h2 := ((builder_auto_detection_c8 (SearchBuilder.query' (SearchBuilder.new []) " read , file ,")
    " read , file ," rfl rfl).2.1 (by decide) (by decide)).1
  have h3 := (builder_auto_detection_c8 (SearchBuilder.query' (SearchBuilder.new []) "read")
    "read" rfl rfl).2.2.1 (by decide) (by decide)
  have h4 := (builder_auto_detection_c8 (SearchBuilder.query' (SearchBuilder.new []) "read")
    "read" rfl rfl).2.2.2 (SearchBuilder.query' (SearchBuilder.new []) "read") ["a"]
  refine ⟨h1.1, ?_, h3.1, h4.1, h4.2.2⟩
  rw [h2]
  rfl

/-! ### C5: sort before truncate -/

lemma ordering_then_isLE (o1 o2 : Ordering) :
    (o1.then o2).isLE = true ↔
      (o1 = Ordering.lt ∨ (o1 = Ordering.eq ∧ o2.isLE = true)) := by
  cases o1 <;> cases o2 <;> decide

lemma compare_isLE_iff (a b : String) : (compare a b).isLE = true ↔ a ≤ b := by
  rw [← compare_le_iff_le]
  cases h : compare a b <;> simp [Ordering.isLE]

lemma cmp_server_then_tool_isLE_iff (a b : ToolSearchMatch) :
    (cmp_server_then_tool a b).isLE = true ↔
      (a.server_name < b.server_name ∨
        (a.server_name = b.server_name ∧ a.tool_name ≤ b.tool_name)) := by
  unfold cmp_server_then_tool
  rw [ordering_then_isLE, compare_lt_iff_lt, compare_eq_iff_eq, compare_isLE_iff]

lemma cmp_tool_then_server_isLE_iff (a b : ToolSearchMatch) :
    (cmp_tool_then_server a b).isLE = true ↔
      (a.tool_name < b.tool_name ∨
        (a.tool_name = b.tool_name ∧ a.server_name ≤ b.server_name)) := by
  unfold cmp_tool_then_server
  rw [ordering_then_isLE, compare_lt_iff_lt, compare_eq_iff_eq, compare_isLE_iff]

lemma lex_string_trans {s1 s2 s3 t1 t2 t3 : String}
    (h1 : s1 < s2 ∨ (s1 = s2 ∧ t1 ≤ t2)) (h2 : s2 < s3 ∨ (s2 = s3 ∧ t2 ≤ t3)) :
    s1 < s3 ∨ (s1 = s3 ∧ t1 ≤ t3) := by
  rcases h1 with h1 | ⟨e1, l1⟩
  · rcases h2 with h2 | ⟨e2, l2⟩
    · exact Or.inl (lt_trans h1 h2)
    · exact Or.inl (e2 ▸ h1)
  · rcases h2 with h2 | ⟨e2, l2⟩
    · exact Or.inl (e1 ▸ h2)
    · exact Or.inr ⟨e1.trans e2, le_trans l1 l2⟩

lemma lex_string_total (s1 s2 t1 t2 : String) :
    (s1 < s2 ∨ (s1 = s2 ∧ t1 ≤ t2)) ∨ (s2 < s1 ∨ (s2 = s1 ∧ t2 ≤ t1)) := by
  rcases lt_trichotomy s1 s2 with h | h | h
  · exact Or.inl (Or.inl h)
  · subst h
    exact (le_total t1 t2).imp (fun l => Or.inr ⟨rfl, l⟩) (fun l => Or.inr ⟨rfl, l⟩)
  · exact Or.inr (Or.inl h)

lemma sorted_server_then_tool (ms : List ToolSearchMatch) :
    List.Pairwise (fun a b => (cmp_server_then_tool a b).isLE = true)
      (ms.mergeSort (fun a b => (cmp_server_then_tool a b).isLE)) := by
  apply List.sorted_mergeSort
  · intro a b c h1 h2
    rw [cmp_server_then_tool_isLE_iff] at h1 h2 ⊢
    exact lex_string_trans h1 h2
  · intro a b
    rw [Bool.or_eq_true, cmp_server_then_tool_isLE_iff,
      cmp_server_then_tool_isLE_iff]
    exact lex_string_total _ _ _ _

lemma sorted_tool_then_server (ms : List ToolSearchMatch) :
    List.Pairwise (fun a b => (cmp_tool_then_server a b).isLE = true)
      (ms.mergeSort (fun a b => (cmp_tool_then_server a b).isLE)) := by
  apply List.sorted_mergeSort
  · intro a b c h1 h2
    rw [cmp_tool_then_server_isLE_iff] at h1 h2 ⊢
    exact lex_string_trans h1 h2
  · intro a b
    rw [Bool.or_eq_true, cmp_tool_then_server_isLE_iff,
      cmp_tool_then_server_isLE_iff]
    exact lex_string_total _ _ _ _

/-- C5 (confirmed): the sort step orders the aggregated matches by provider
name then tool name when `sort_order = ServerThenTool` (ascending,
lexicographic: the chained `cmp`/`then_with` comparator of the source), by
tool name then provider name for `ToolThenServer`, and leaves the order
unchanged for `None`; the sorted list is a permutation of the input; and the
truncation applies to the *sorted* list, so `max_results = 1` returns exactly
the head of the fully sorted list. -/
theorem sort_before_truncate_c5 (ms : List ToolSearchMatch)
    (opts : SearchOptions) (k : Nat) :
    ((sort_results SortOrder.serverThenTool ms).Perm ms ∧
      List.Pairwise (fun a b => (cmp_server_then_tool a b).isLE = true)
        (sort_results SortOrder.serverThenTool ms)) ∧
    ((sort_results SortOrder.toolThenServer ms).Perm ms ∧
      List.Pairwise (fun a b => (cmp_tool_then_server a b).isLE = true)
        (sort_results SortOrder.toolThenServer ms)) ∧
    (sort_results SortOrder.none ms = ms) ∧
    (opts.max_results = some k →
      apply_limit opts.max_results (sort_results opts.sort_order ms)
        = (sort_results opts.sort_order ms).take k) ∧
    (opts.max_results = some 1 →
      ∀ x l, sort_results opts.sort_order ms = x :: l →
        apply_limit opts.max_results (sort_results opts.sort_order ms) = [x]) := by
  refine ⟨⟨List.mergeSort_perm ms _, sorted_server_then_tool ms⟩,
    ⟨List.mergeSort_perm ms _, sorted_tool_then_server ms⟩, rfl, ?_, ?_⟩
  · intro hmax
    rw [hmax]
    rfl
  · intro hmax x l hsort
    rw [hmax, hsort]
    rfl

/-- C5 witness: a concrete two-element match set, already in
server-then-tool order, with `max_results = 1`: the returned list is exactly
the head of the fully sorted list. -/
theorem sort_before_truncate_c5_witness :
    sort_results SortOrder.serverThenTool
      [⟨"A", ⟨"get_file", none, none, []⟩⟩, ⟨"B", ⟨"read_data", none, none, []⟩⟩]
      = [⟨"A", ⟨"get_file", none, none, []⟩⟩, ⟨"B", ⟨"read_data", none, none, []⟩⟩] ∧
    apply_limit (some 1)
      (sort_results SortOrder.serverThenTool
        [⟨"A", ⟨"get_file", none, none, []⟩⟩, ⟨"B", ⟨"read_data", none, none, []⟩⟩])
      = [⟨"A", ⟨"get_file", none, none, []⟩⟩] := by
  have hsort : sort_results SortOrder.serverThenTool
      [⟨"A", ⟨"get_file", none, none, []⟩⟩, ⟨"B", ⟨"read_data", none, none, []⟩⟩]
      = [⟨"A", ⟨"get_file", none, none, []⟩⟩, ⟨"B", ⟨"read_data", none, none, []⟩⟩] := by
    show List.mergeSort _ _ = _
    apply List.mergeSort_of_sorted
    decide
  have h := (sort_before_truncate_c5
    [⟨"A", ⟨"get_file", none, none, []⟩⟩, ⟨"B", ⟨"read_data", none, none, []⟩⟩]
    { timeout := some 30, sort_order := SortOrder.serverThenTool,
      continue_on_error := true, max_results := some 1 } 1).2.2.2.2 rfl
    ⟨"A", ⟨"get_file", none, none, []⟩⟩ [⟨"B", ⟨"read_data", none, none, []⟩⟩] hsort
  exact ⟨hsort, h⟩

/-! ### C1 and C2: orchestrator error policy -/

lemma aggregate_continue (p : Tool → Bool) (rs : List ProviderResult) :
    aggregate_results p rs true =
      Except.ok (matches_of p (provider_successes rs),
        (provider_failures rs).map (fun x => format_error x.1 x.2)) := by
  induction rs with
  | nil => rfl
  | cons hd rest ih =>
    rcases hd with ⟨n, r⟩
    cases r with
    | ok tools =>
      simp [aggregate_results, provider_successes, provider_failures,
        matches_of, ih]
    | error e =>
      simp [aggregate_results, provider_successes, provider_failures,
        matches_of, ih]

lemma aggregate_abort (p : Tool → Bool) (n : String) (e : ToolSearchError) :
    ∀ pre post : List ProviderResult, (∀ x ∈ pre, (x.2).isOk = true) →
      aggregate_results p (pre ++ (n, Except.error e) :: post) false
        = Except.error e := by
  intro pre
  induction pre with
  | nil =>
    intro post _
    simp [aggregate_results]
  | cons hd rest ih =>
    intro post hok
    rcases hd with ⟨n', r⟩
    cases r with
    | ok tools =>
      simp [aggregate_results,
        ih post (fun x hx => hok x (List.mem_cons_of_mem _ hx))]
    | error e' =>
      have hfalse := hok (n', Except.error e') (List.mem_cons_self _ _)
      simp [Except.isOk, Except.toBool] at hfalse

/-- C2 (confirmed): when `continue_on_error` is false, the first failed
provider query (in dispatch order) makes the whole call return that error,
discarding the matches gathered from the providers before it; when it is
true, the aggregation returns exactly the matches contributed by the
successful providers (a failing provider contributes none) together with one
formatted recoverable-error entry per failed provider, and the call returns
those matches sorted and truncated. -/
theorem partial_failure_policy_c2 (p : Tool → Bool)
    (rs : List ProviderResult) (opts : SearchOptions) :
    (opts.continue_on_error = false →
      ∀ pre n e post, rs = pre ++ (n, Except.error e) :: post →
        (∀ x ∈ pre, (x.2).isOk = true) →
        search_tools_with_options p rs opts = Except.error e) ∧
    (opts.continue_on_error = true →
      aggregate_results p rs true =
        Except.ok (matches_of p (provider_successes rs),
          (provider_failures rs).map (fun x => format_error x.1 x.2)) ∧
      search_tools_with_options p rs opts =
        Except.ok (apply_limit opts.max_results
          (sort_results opts.sort_order (matches_of p (provider_successes rs))))) := by
  constructor
  · intro hco pre n e post hrs hok
    subst hrs
    simp [search_tools_with_options, hco, aggregate_abort p n e pre post hok]
  · intro hco
    have ha := aggregate_continue p rs
    exact ⟨ha, by simp [search_tools_with_options, hco, ha]⟩

/-- C2 witness: one succeeding provider `A` (one tool) and one failing
provider `B`; with `continue_on_error = false` the call returns the error of
`B`, with `continue_on_error = true` it returns the match from `A`. -/
theorem partial_failure_policy_c2_witness :
    search_tools_with_options (fun _ => true)
      [("A", Except.ok [⟨"alpha", none, none, []⟩]),
       ("B", Except.error (ToolSearchError.connection "connection refused"))]
      ⟨some 30, SortOrder.none, false, none⟩
      = Except.error (ToolSearchError.connection "connection refused") ∧
    search_tools_with_options (fun _ => true)
      [("A", Except.ok [⟨"alpha", none, none, []⟩]),
       ("B", Except.error (ToolSearchError.connection "connection refused"))]
      ⟨some 30, SortOrder.none, true, none⟩
      = Except.ok [⟨"A", ⟨"alpha", none, none, []⟩⟩] := by
  constructor
  · exact (partial_failure_policy_c2 (fun _ => true)
      [("A", Except.ok [⟨"alpha", none, none, []⟩]),
       ("B", Except.error (ToolSearchError.connection "connection refused"))]
      ⟨some 30, SortOrder.none, false, none⟩).1 rfl
      [("A", Except.ok [⟨"alpha", none, none, []⟩])]
      "B" (ToolSearchError.connection "connection refused") [] rfl
      (by intro x hx; rw [List.mem_singleton] at hx; subst hx; rfl)
  · exact ((partial_failure_policy_c2 (fun _ => true)
      [("A", Except.ok [⟨"alpha", none, none, []⟩]),
       ("B", Except.error (ToolSearchError.connection "connection refused"))]
      ⟨some 30, SortOrder.none, true, none⟩).2 rfl).2

/-- C1 counterexample.  The claim says that with `continue_on_error = true`
the orchestrator returns the *pair* `(matches, recoverableErrors)` to the
caller, never surfacing provider failures only as side-channel logging.  The
returned value is in fact `Ok(matches)` alone: a run in which provider `B`
fails is indistinguishable in the returned value from a run in which `B`
succeeds with an empty listing — the recoverable error is absent from what
the caller receives (it is only printed to stderr). -/
theorem orchestrator_return_c1_counterexample :
    search_tools_with_options (fun _ => true)
      [("A", Except.ok [⟨"alpha", none, none, []⟩]),
       ("B", Except.error (ToolSearchError.connection "connection refused"))]
      ⟨some 30, SortOrder.none, true, none⟩
      = Except.ok [⟨"A", ⟨"alpha", none, none, []⟩⟩] ∧
    search_tools_with_options (fun _ => true)
      [("A", Except.ok [⟨"alpha", none, none, []⟩]),
       ("B", Except.error (ToolSearchError.connection "connection refused"))]
      ⟨some 30, SortOrder.none, true, none⟩
      = search_tools_with_options (fun _ => true)
        [("A", Except.ok [⟨"alpha", none, none, []⟩]), ("B", Except.ok [])]
        ⟨some 30, SortOrder.none, true, none⟩ :=
  ⟨rfl, rfl⟩

/-- Replace a failed provider result by an empty successful listing. -/
def drop_failure : Except ToolSearchError (List Tool) →
    Except ToolSearchError (List Tool)
  | Except.ok tools => Except.ok tools
  | Except.error _ => Except.ok []

lemma matches_of_drop_failure (p : Tool → Bool) (rs : List ProviderResult) :
    matches_of p (provider_successes
      (rs.map (fun x => (x.1, drop_failure x.2))))
      = matches_of p (provider_successes rs) := by
  induction rs with
  | nil => rfl
  | cons hd rest ih =>
    rcases hd with ⟨n, r⟩
    simp only [List.map_cons]
    cases r with
    | ok tools =>
      show matches_of p (provider_successes ((n, Except.ok tools) ::
        rest.map (fun x => (x.1, drop_failure x.2)))) = _
      simp only [provider_successes, matches_of]
      rw [ih]
    | error e =>
      show matches_of p (provider_successes ((n, Except.ok []) ::
        rest.map (fun x => (x.1, drop_failure x.2)))) = _
      simp only [provider_successes, matches_of]
      rw [ih]
      simp [provider_successes]

/-- C1 (corrected): with `continue_on_error = true` the orchestrator always
returns `Ok` with only the match list; the per-provider recoverable errors
are accumulated internally (one formatted entry per failed provider, see the
aggregation equation) and surfaced solely by logging, so the returned value
is unchanged when every failed provider is replaced by an empty successful
listing. -/
theorem orchestrator_return_c1 (p : Tool → Bool)
    (rs : List ProviderResult) (opts : SearchOptions)
    (h : opts.continue_on_error = true) :
    (search_tools_with_options p rs opts).isOk = true ∧
    search_tools_with_options p rs opts
      = search_tools_with_options p
          (rs.map (fun x => (x.1, drop_failure x.2))) opts ∧
    aggregate_results p rs true
      = Except.ok (matches_of p (provider_successes rs),
          (provider_failures rs).map (fun x => format_error x.1 x.2)) := by
  have ha := aggregate_continue p rs
  have hb := aggregate_continue p (rs.map (fun x => (x.1, drop_failure x.2)))
  refine ⟨?_, ?_, ha⟩
  · simp [search_tools_with_options, h, ha, Except.isOk, Except.toBool]
  · simp [search_tools_with_options, h, ha, hb, matches_of_drop_failure]

/-- C1 witness: the corrected statement applied to the concrete one-success,
one-failure scenario of the counterexample. -/
theorem orchestrator_return_c1_witness :
    (search_tools_with_options (fun _ => true)
      [("A", Except.ok [⟨"alpha", none, none, []⟩]),
       ("B", Except.error (ToolSearchError.connection "connection refused"))]
      ⟨some 30, SortOrder.none, true, none⟩).isOk = true :=
  (orchestrator_return_c1 (fun _ => true)
    [("A", Except.ok [⟨"alpha", none, none, []⟩]),
     ("B", Except.error (ToolSearchError.connection "connection refused"))]
    ⟨some 30, SortOrder.none, true, none⟩ rfl).1

/-! ### C9: `matches` never panics -/

lemma text_matches_isSome (c : SearchCriteria) (t : String)
    (h : c.query.isSome = true ∨ c.mode = SearchMode.regex ∨
      c.mode = SearchMode.keywords) :
    (c.text_matches t).isSome = true := by
  unfold SearchCriteria.text_matches
  cases hm : c.mode
  case regex =>
    cases hr : c.regex with
    | none =>
      cases hq : c.query with
      | none => simp
      | some q => cases hrn : regex_new q <;> simp [hrn]
    | some r => cases r <;> simp
  case keywords => simp
  case substring =>
    cases hq : c.query with
    | some q => simp
    | none =>
      rcases h with h | h | h
      · rw [hq] at h
        cases h
      · rw [hm] at h
        cases h
      · rw [hm] at h
        cases h
  case wordBoundary =>
    cases hq : c.query with
    | some q => simp
    | none =>
      rcases h with h | h | h
      · rw [hq] at h
        cases h
      · rw [hm] at h
        cases h
      · rw [hm] at h
        cases h

lemma first_fragment_match_isSome (c : SearchCriteria)
    (h : c.query.isSome = true ∨ c.mode = SearchMode.regex ∨
      c.mode = SearchMode.keywords) :
    ∀ l, (c.first_fragment_match l).isSome = true := by
  intro l
  induction l with
  | nil => rfl
  | cons t ts ih =>
    have ht := text_matches_isSome c t h
    simp only [SearchCriteria.first_fragment_match]
    cases htm : c.text_matches t with
    | none => rw [htm] at ht; cases ht
    | some b => cases b <;> simp [htm, ih]

/-- C9 counterexample.  The claim says `matches` never panics for any
criteria constructible through the public API.  But
`with_keywords(["a"]).with_mode(Substring)` is constructible, has no query
and a non-empty keyword list, so `matches` reaches the `Substring` arm of
`text_matches` and panics on `self.query.as_ref().unwrap()` (modelled by the
`none` result). -/
theorem matches_no_panic_c9_counterexample :
    ConstructibleCriteria
      ((SearchCriteria.with_keywords ["a"]).with_mode SearchMode.substring) ∧
    ((SearchCriteria.with_keywords ["a"]).with_mode
      SearchMode.substring).matches'
      { name := "alpha", title := none, description := none, input_schema := [] }
      = none :=
  ⟨ConstructibleCriteria.with_mode _ _ (ConstructibleCriteria.with_keywords _),
   by decide⟩

/-- C9 (corrected): for every API-constructible criteria, `matches` returns a
boolean without panicking **unless** the criteria is query-less with a
non-empty keyword list and was switched into `Substring` or `WordBoundary`
mode (the only constructible way to reach the `unwrap` calls with no query) —
i.e., whenever a query is present, or the mode is `Regex` or `Keywords`, or
the keyword list is empty, `matches` is total. -/
theorem matches_no_panic_c9 (c : SearchCriteria) (t : Tool)
    (hc : ConstructibleCriteria c)
    (hsafe : c.query.isSome = true ∨ c.mode = SearchMode.regex ∨
      c.mode = SearchMode.keywords ∨ c.keywords = []) :
    (c.matches' t).isSome = true := by
  unfold SearchCriteria.matches'
  cases hn : c.name with
  | some n => simp
  | none =>
    by_cases hmin : (match c.min_description_length with
      | some min_len =>
        (t.description.map (fun d => decide (d.utf8ByteSize < min_len))).getD true
      | none => false) = true
    · simp [hmin]
    · simp only [Bool.not_eq_true] at hmin
      simp only [hmin, Bool.false_eq_true, if_false]
      by_cases hempty : (c.query.isNone && c.keywords.isEmpty) = true
      · simp [hempty]
      · simp only [hempty, Bool.false_eq_true, if_false]
        apply first_fragment_match_isSome
        rcases hsafe with h | h | h | h
        · exact Or.inl h
        · exact Or.inr (Or.inl h)
        · exact Or.inr (Or.inr h)
        · have hke : c.keywords.isEmpty = true := by simp [h]
          have hqn : c.query.isNone = false := by
            cases hqn : c.query.isNone
            · rfl
            · exact absurd (by simp [hqn, hke]) hempty
          left
          cases hq : c.query with
          | none => simp [hq] at hqn
          | some q => simp

/-- C9 witness: the corrected statement applied to the constructible
criteria `with_query "x"` (query present) on a concrete tool. -/
theorem matches_no_panic_c9_witness :
    ((SearchCriteria.with_query "x").matches'
      { name := "alpha", title := none, description := none,
        input_schema := [] }).isSome = true :=
  matches_no_panic_c9 (SearchCriteria.with_query "x")
    { name := "alpha", title := none, description := none, input_schema := [] }
    (ConstructibleCriteria.with_query "x") (Or.inl rfl)
